import Mathlib

/-!
# A shallow embedding of the `zdbg` debugger core

This file embeds the core of the `zdbg` interactive debugger
(`src/dbg.rs`, `src/main.rs`) in Lean and proves the testable
properties of its specification against it.

The embedding models the traced child process and the operating
system explicitly:

* `Child` is the observable state of the traced process: its memory
  (one 64-bit word per byte address, as read/written by the word-wise
  trace primitives at a fixed address) and its instruction pointer.
* `Sys` carries the child, an oracle `waits` of pending `waitpid`
  results (each paired with the instruction pointer the child has when
  that status is reported), a chronological `log` of the effects the
  debugger issued to the OS, and the pid a fork would produce.
* `Out α` is the outcome of a debugger operation: `ok`, a propagated
  `Err` (`err`), an exhausted wait oracle (`stuck`, modelling an
  operation that blocks or loops forever), or a Rust panic
  (`panicked`).

Machine integers are `Nat` with explicit reduction modulo `2 ^ 64`
(words, instruction pointers) where the Rust code computes modulo
`2 ^ 64`.

The source leaves four bodies as unfinished exercises
(`set_break`, `do_stepi`, `step_and_break` and the trace-stop branch of
`wait_child` return `Err("TODO")` or do nothing); those are modelled
from the specification, as marked by their doc comments. Everything
else is translated directly from the Rust source.
-/

set_option autoImplicit false

namespace ZdbgModel

/-- `waitpid` outcome kinds: `WaitStatus::Exited(..)`,
`WaitStatus::Signaled(..)`, `WaitStatus::Stopped(..)`, and every other
variant collapsed into `other`. -/
inductive WStatus where
  | exited
  | signaled
  | stopped
  | other
  deriving DecidableEq, Repr

/-- `w` reports termination of the child (`Exited` or `Signaled`). -/
def WStatus.isTerm (w : WStatus) : Bool :=
  match w with
  | .exited => true
  | .signaled => true
  | _ => false

/-- Effects the debugger issues to the operating system or to the
terminal.  `out` is a message printed for the user. -/
inductive Effect where
  | fork
  | peek (addr : Nat)
  | poke (addr val : Nat)
  | getregs
  | setregs (rip : Nat)
  | stepE
  | contE
  | kill
  | waitE
  | out (s : String)
  deriving DecidableEq, Repr

/-- Observable state of the traced child: `mem a` is the 64-bit word
the word-wise trace read primitive returns at byte address `a`, and
`rip` is the instruction pointer recorded in its register set. -/
structure Child where
  mem : Nat → Nat
  rip : Nat

/-- The world a debugger operation runs in: the child, the oracle of
pending `waitpid` reports (status plus the child's instruction pointer
at that report), the effect log, and the pid `fork` returns. -/
structure Sys where
  child : Child
  waits : List (WStatus × Nat)
  log : List Effect
  forkPid : Nat

/-- Outcome of a debugger operation: success, a propagated Rust
`Err(..)` with its message, blocking forever on `waitpid` (the wait
oracle ran out), or a Rust panic. -/
inductive Out (α : Type) where
  | ok : α → Out α
  | err : String → Out α
  | stuck : Out α
  | panicked : Out α
  deriving Repr

/-- `DbgInfo` from `src/dbg.rs`: pid of the traced child, the
registered breakpoint address, the saved original memory word, and
the target executable. -/
structure DbgInfo where
  pid : Nat
  brk_addr : Option Nat
  brk_val : Nat
  filename : String
  deriving DecidableEq, Repr

/-- `State` from `src/dbg.rs`: the tagged representation of the two
typestates plus the terminal state. -/
inductive StateR where
  | Running (info : DbgInfo)
  | NotRunning (info : DbgInfo)
  | Exit
  deriving DecidableEq, Repr

/-- Append one effect to the log. -/
def emit (e : Effect) (s : Sys) : Sys :=
  { s with log := s.log ++ [e] }

/-- `ptrace::read`: read the 64-bit word at `addr` of the child. -/
def pRead (addr : Nat) (s : Sys) : Nat × Sys :=
  (s.child.mem addr % 2 ^ 64, emit (.peek addr) s)

/-- `ptrace::write`: write the 64-bit word `v` at `addr` of the child. -/
def pWrite (addr v : Nat) (s : Sys) : Sys :=
  let s1 := emit (.poke addr (v % 2 ^ 64)) s
  { s1 with
      child := { s1.child with
                   mem := fun a => if a = addr then v % 2 ^ 64 else s1.child.mem a } }

/-- `ptrace::getregs`: read the register set; only `rip` is used by
the debugger logic, so the model returns it. -/
def pGetregs (s : Sys) : Nat × Sys :=
  (s.child.rip, emit .getregs s)

/-- `ptrace::setregs` after updating `rip`: store `rip` back into the
child's register set. -/
def pSetregs (rip : Nat) (s : Sys) : Sys :=
  let s1 := emit (.setregs (rip % 2 ^ 64)) s
  { s1 with child := { s1.child with rip := rip % 2 ^ 64 } }

/-- `waitpid(pid, None)`: consume the next oracle entry.  When the
child reports a trace-stop its instruction pointer becomes the one
recorded in the oracle entry. -/
def pWait (s : Sys) : Out ((WStatus × Nat) × Sys) :=
  match s.waits with
  | [] => .stuck
  | (w, r) :: ws =>
      let c := if w = .stopped then { s.child with rip := r % 2 ^ 64 } else s.child
      .ok ((w, r), ⟨c, ws, s.log ++ [.waitE], s.forkPid⟩)

/-- Subtraction of one on a 64-bit word, with wrap-around
(`regs.rip - 1` on a `u64`). -/
def wsub1 (r : Nat) : Nat :=
  (r + (2 ^ 64 - 1)) % 2 ^ 64

/-- Diagnostic printed by `ZDbg::<Running>::do_cmd` for `run`. -/
def alreadyRunMsg : String := "<<既に実行中です>>"

/-- Diagnostic printed by `ZDbg::<NotRunning>::do_cmd` for
`continue`, `stepi` and `registers`. -/
def notRunMsg : String := "<<ターゲットを実行していません。runで実行してください>>"

/-- Message printed when the child terminates. -/
def childExitMsg : String := "<<子プロセスが終了しました>>"

/-- Diagnostic printed by `set_break_addr` when a breakpoint is
already registered. -/
def brkSetMsg : String := "<<ブレークポイントは設定済みです>>"

/-- Error message of `do_run` when the child terminates before its
first trace-stop. -/
def launchFailMsg : String := "子プロセスの実行に失敗しました"

/-- Error message of `do_run` on any other first wait status. -/
def launchBadMsg : String := "子プロセスが不正な状態です"

/-- Error message of `wait_child` on a protocol-violating status. -/
def waitErrMsg : String := "waitpidの返り値が不正です"

/-- Message printed by `do_run` when the child reaches its first
trace-stop. -/
def runOkMsg : String := "<<子プロセスの実行に成功しました>>"

/-- The fixed help text of `do_help` (abbreviated; its exact content
is irrelevant to the properties below). -/
def helpMsg : String := "コマンド一覧"

/-- The register table `print_regs` formats (abbreviated to the
instruction pointer; the other registers play no role in the logic). -/
def regsMsg (rip : Nat) : String := "RIP: " ++ toString rip

/-- Numeric value of one hexadecimal digit character, if any. -/
def hexDigit? (c : Char) : Option Nat :=
  if '0' ≤ c ∧ c ≤ '9' then some (c.toNat - 48)
  else if 'a' ≤ c ∧ c ≤ 'f' then some (c.toNat - 87)
  else if 'A' ≤ c ∧ c ≤ 'F' then some (c.toNat - 55)
  else none

/-- Digit-accumulation loop of `usize::from_str_radix(_, 16)`:
`checked_mul` by 16 then `checked_add` of the digit at every step,
failing on a non-digit or on overflow past `2 ^ 64`. -/
def parseHexGo : List Char → Nat → Option Nat
  | [], acc => some acc
  | c :: cs, acc =>
      match hexDigit? c with
      | none => none
      | some d =>
          if 16 * acc + d < 2 ^ 64 then parseHexGo cs (16 * acc + d) else none

/-- Unsigned digit run after an optional sign: at least one digit is
required. -/
def parseHexAll (l : List Char) : Option Nat :=
  match l with
  | [] => none
  | _ => parseHexGo l 0

/-- `usize::from_str_radix(s, 16)`: an optional leading `+` sign,
then at least one hexadecimal digit, with overflow checking against
`usize` (64 bits).  A `-` is a sign only for signed types; for
`usize` it falls into the digit loop and fails as an invalid digit. -/
def from_str_radix16 (s : String) : Option Nat :=
  match s.data with
  | [] => none
  | c :: rest =>
      if c = '+' then parseHexAll rest
      else parseHexAll (c :: rest)

/-- Number of UTF-8 bytes of a character. -/
def charBytes (c : Char) : Nat :=
  if c.toNat < 0x80 then 1
  else if c.toNat < 0x800 then 2
  else if c.toNat < 0x10000 then 3
  else 4

/-- The Rust byte slice `&s[0..2]`, as the list of characters it
covers: `none` when the slice panics (the string is shorter than two
bytes, or byte index 2 falls inside a multi-byte character). -/
def firstTwoBytes? (s : String) : Option (List Char) :=
  match s.data with
  | [] => none
  | c1 :: rest =>
      if charBytes c1 = 2 then some [c1]
      else if charBytes c1 = 1 then
        match rest with
        | [] => none
        | c2 :: _ => if charBytes c2 = 1 then some [c1, c2] else none
      else none

/-- `get_break_addr` from `src/dbg.rs`: parse the breakpoint address
from the command tokens.  `Except.error ()` models the panic of the
byte slice `&addr_str[0..2]`. -/
def get_break_addr (cmd : List String) : Except Unit (Option Nat) :=
  match cmd with
  | _ :: addr_str :: _ =>
      match firstTwoBytes? addr_str with
      | none => .error ()
      | some pre =>
          if pre = ['0', 'x'] then
            .ok (from_str_radix16 (String.mk (addr_str.data.drop 2)))
          else
            .ok none
  | _ => .ok none

/-- `ZDbg::<T>::set_break_addr`: reject when a breakpoint is already
registered, otherwise record the parsed address.  Returns the updated
info and whether the address was set. -/
def set_break_addr (info : DbgInfo) (cmd : List String) (s : Sys) :
    Out ((DbgInfo × Bool) × Sys) :=
  match info.brk_addr with
  | some _ => .ok ((info, false), emit (.out brkSetMsg) s)
  | none =>
      match get_break_addr cmd with
      | .error _ => .panicked
      | .ok (some addr) => .ok (({ info with brk_addr := some addr }, true), s)
      | .ok none => .ok ((info, false), s)

/-- `ZDbg::<T>::do_cmd_common`: `help`/`h` prints the help text,
anything else is a no-op. -/
def do_cmd_common (c : String) (s : Sys) : Sys :=
  if c = "help" ∨ c = "h" then emit (.out helpMsg) s else s

/-- Modelled from the spec: the body of `ZDbg::<Running>::set_break`
is an unfinished exercise in the source (it returns `Err("TODO")`
below the comment directing the reader to install the breakpoint).
Spec §4.3 `install()`: if no address is registered, no-op success;
otherwise read the full memory word at the breakpoint address, save it
as the original value, then write back a word identical except that
its lowest-order byte is replaced by the one-byte trap opcode `0xcc`. -/
def set_break (info : DbgInfo) (s : Sys) : Out (DbgInfo × Sys) :=
  match info.brk_addr with
  | none => .ok (info, s)
  | some addr =>
      let (v, s1) := pRead addr s
      let s2 := pWrite addr (v - v % 256 + 0xcc) s1
      .ok ({ info with brk_val := v }, s2)

/-- `ZDbg::<Running>::wait_child`, with its trace-stop branch modelled
from the spec: the branch is an unfinished exercise in the source (it
returns the running state unchanged below the comment directing the
reader to repair the instruction pointer and restore memory).
Spec §4.4 `wait_for_stop`: on termination report it and return
not-running; on a trace-stop compare the reported instruction pointer
minus one with the registered breakpoint address, and on a match write
the decremented instruction pointer back into the register set and
restore the original memory word at that address; any other status is
a protocol violation. -/
def wait_child (info : DbgInfo) (s : Sys) : Out (StateR × Sys) :=
  match pWait s with
  | .err e => .err e
  | .stuck => .stuck
  | .panicked => .panicked
  | .ok ((w, _), s1) =>
      match w with
      | .exited => .ok (.NotRunning info, emit (.out childExitMsg) s1)
      | .signaled => .ok (.NotRunning info, emit (.out childExitMsg) s1)
      | .stopped =>
          let (rip, s2) := pGetregs s1
          match info.brk_addr with
          | some addr =>
              if wsub1 rip = addr then
                let s3 := pSetregs (wsub1 rip) s2
                let s4 := pWrite addr info.brk_val s3
                .ok (.Running info, s4)
              else
                .ok (.Running info, s2)
          | none => .ok (.Running info, s2)
      | .other => .err waitErrMsg

/-- Modelled from the spec: the body of `ZDbg::<Running>::step_and_break`
is an unfinished exercise in the source (it returns the running state
unchanged below the comment describing the step-over).
Spec §4.4 `step_over_if_at_breakpoint`: if the current instruction
pointer equals the registered breakpoint address, restore the original
word, issue one single-instruction step, wait for the resulting stop
(propagating termination), and reinstall the trap; otherwise a no-op
returning the unchanged state. -/
def step_and_break (info : DbgInfo) (s : Sys) : Out (StateR × Sys) :=
  let (rip, s1) := pGetregs s
  match info.brk_addr with
  | some addr =>
      if rip = addr then
        let s2 := pWrite addr info.brk_val s1
        let s3 := emit .stepE s2
        match pWait s3 with
        | .err e => .err e
        | .stuck => .stuck
        | .panicked => .panicked
        | .ok ((w, _), s4) =>
            if w.isTerm then
              .ok (.NotRunning info, emit (.out childExitMsg) s4)
            else
              match set_break info s4 with
              | .ok (info1, s5) => .ok (.Running info1, s5)
              | .err e => .err e
              | .stuck => .stuck
              | .panicked => .panicked
      else
        .ok (.Running info, s1)
  | none => .ok (.Running info, s1)

/-- Modelled from the spec: the body of `ZDbg::<Running>::do_stepi` is
an unfinished exercise in the source (it returns `Err("TODO")` below
the comment describing the two cases).  Spec §4.4 `single_step`: if
the current instruction pointer equals the registered breakpoint
address, this is exactly the step-over helper's effect — return its
result directly; otherwise issue one plain single-instruction step and
wait for the resulting stop. -/
def do_stepi (info : DbgInfo) (s : Sys) : Out (StateR × Sys) :=
  let (rip, s1) := pGetregs s
  if info.brk_addr = some rip then
    step_and_break info s1
  else
    wait_child info (emit .stepE s1)

/-- `ZDbg::<Running>::do_continue`: step over a breakpoint the child
is stopped at, then (if still running) resume freely and wait. -/
def do_continue (info : DbgInfo) (s : Sys) : Out (StateR × Sys) :=
  match step_and_break info s with
  | .ok (.Running info1, s1) => wait_child info1 (emit .contE s1)
  | .ok (st, s1) => .ok (st, s1)
  | .err e => .err e
  | .stuck => .stuck
  | .panicked => .panicked

/-- The kill/wait loop of `ZDbg::<Running>::do_exit`, recursing on the
wait oracle: signal the child, wait, and stop as soon as termination
is observed. -/
def exitLoop (c : Child) (fp : Nat) (log : List Effect) :
    List (WStatus × Nat) → Out (Unit × Sys)
  | [] => .stuck
  | (w, r) :: ws =>
      let c1 := if w = .stopped then { c with rip := r % 2 ^ 64 } else c
      let log1 := log ++ [.kill, .waitE]
      if w.isTerm then .ok ((), ⟨c1, ws, log1, fp⟩)
      else exitLoop c1 fp log1 ws

/-- `ZDbg::<Running>::do_exit`: loop killing and waiting until the
child's termination is observed. -/
def do_exit (s : Sys) : Out (Unit × Sys) :=
  exitLoop s.child s.forkPid s.log s.waits

/-- `ZDbg::<NotRunning>::do_run` (parent path): fork, wait for the
child's first status; on a trace-stop record the pid, install the
pending breakpoint, and continue; on early termination or any other
status fail. -/
def do_run (info : DbgInfo) (s : Sys) : Out (StateR × Sys) :=
  let s0 := emit .fork s
  match pWait s0 with
  | .err e => .err e
  | .stuck => .stuck
  | .panicked => .panicked
  | .ok ((w, _), s1) =>
      match w with
      | .stopped =>
          let s2 := emit (.out runOkMsg) s1
          let info1 := { info with pid := s1.forkPid }
          match set_break info1 s2 with
          | .ok (info2, s3) => do_continue info2 s3
          | .err e => .err e
          | .stuck => .stuck
          | .panicked => .panicked
      | .exited => .err launchFailMsg
      | .signaled => .err launchFailMsg
      | .other => .err launchBadMsg

/-- `ZDbg::<NotRunning>::do_cmd`: dispatch a command while no child is
running. -/
def notRunningDoCmd (info : DbgInfo) (cmd : List String) (s : Sys) :
    Out (StateR × Sys) :=
  match cmd with
  | [] => .ok (.NotRunning info, s)
  | c :: _ =>
      if c = "run" ∨ c = "r" then do_run info s
      else if c = "break" ∨ c = "b" then
        match set_break_addr info cmd s with
        | .ok ((info1, _), s1) => .ok (.NotRunning info1, s1)
        | .err e => .err e
        | .stuck => .stuck
        | .panicked => .panicked
      else if c = "exit" then .ok (.Exit, s)
      else if c = "continue" ∨ c = "c" ∨ c = "stepi" ∨ c = "s" ∨
              c = "registers" ∨ c = "regs" then
        .ok (.NotRunning info, emit (.out notRunMsg) s)
      else .ok (.NotRunning info, do_cmd_common c s)

/-- `ZDbg::<Running>::do_cmd`: dispatch a command while the child is
running. -/
def runningDoCmd (info : DbgInfo) (cmd : List String) (s : Sys) :
    Out (StateR × Sys) :=
  match cmd with
  | [] => .ok (.Running info, s)
  | c :: _ =>
      if c = "break" ∨ c = "b" then
        match set_break_addr info cmd s with
        | .ok ((info1, true), s1) =>
            match set_break info1 s1 with
            | .ok (info2, s2) => .ok (.Running info2, s2)
            | .err e => .err e
            | .stuck => .stuck
            | .panicked => .panicked
        | .ok ((info1, false), s1) => .ok (.Running info1, s1)
        | .err e => .err e
        | .stuck => .stuck
        | .panicked => .panicked
      else if c = "continue" ∨ c = "c" then do_continue info s
      else if c = "registers" ∨ c = "regs" then
        let (rip, s1) := pGetregs s
        .ok (.Running info, emit (.out (regsMsg rip)) s1)
      else if c = "stepi" ∨ c = "s" then do_stepi info s
      else if c = "run" ∨ c = "r" then
        .ok (.Running info, emit (.out alreadyRunMsg) s)
      else if c = "exit" then
        match do_exit s with
        | .ok (_, s1) => .ok (.Exit, s1)
        | .err e => .err e
        | .stuck => .stuck
        | .panicked => .panicked
      else .ok (.Running info, do_cmd_common c s)

/-- One iteration of the command loop of `run_dbg` in `src/main.rs`:
dispatch the tokenized line against the current state; an `Err` from
`do_cmd` propagates out of the loop (the `?` operator) and ends the
session. -/
def run_dbg_step (st : StateR) (cmd : List String) (s : Sys) :
    Out (StateR × Sys) :=
  match st with
  | .Running i => runningDoCmd i cmd s
  | .NotRunning i => notRunningDoCmd i cmd s
  | .Exit => .ok (.Exit, s)

/-- The command `c` with arguments `rest` is rejected by the
not-running dispatcher: the only new effect is the "not running"
diagnostic and the state is returned unchanged. -/
def rejectedNotRunning (c : String) (info : DbgInfo) (s : Sys)
    (rest : List String) : Prop :=
  notRunningDoCmd info (c :: rest) s =
    .ok (.NotRunning info, { s with log := s.log ++ [.out notRunMsg] })

/-- C5 counterexample inputs: a fresh debugger and a wait oracle whose
first report is that the forked child exited before ever stopping. -/
def infoLaunch : DbgInfo :=
  ⟨0, none, 0, "a.out"⟩

/-- The system state for the C5 counterexample. -/
def sysLaunch : Sys :=
  ⟨⟨fun _ => 0, 0⟩, [(.exited, 0)], [], 7⟩

/-- Accumulated numeric value of a hexadecimal digit string. -/
def hexVal (l : List Char) : Nat :=
  l.foldl (fun a c => 16 * a + (hexDigit? c).getD 0) 0

/-- The state `st` carries a `DbgInfo` whose breakpoint field equals
that of `info` (vacuous for the terminal state). -/
def brkPreserved (info : DbgInfo) : StateR → Prop
  | .Running i => i.brk_addr = info.brk_addr
  | .NotRunning i => i.brk_addr = info.brk_addr
  | .Exit => True

/-- A debugger info with a registered breakpoint at `0x4000`. -/
def infoW : DbgInfo := ⟨5, some 0x4000, 99, "a.out"⟩

/-- A debugger info with no registered breakpoint. -/
def infoN : DbgInfo := ⟨5, none, 0, "a.out"⟩

/-- A constant child memory. -/
def memW : Nat → Nat := fun _ => 0x1122334455667788

/-- A child stopped one byte past the breakpoint `0x4000`
(trap-induced stop), with that stop pending on the wait oracle. -/
def sysW : Sys := ⟨⟨memW, 0x4001⟩, [(.stopped, 0x4001)], [], 7⟩

/-- A child stopped exactly at the breakpoint `0x4000`, with the stop
after a single step pending on the wait oracle. -/
def sysAt : Sys := ⟨⟨memW, 0x4000⟩, [(.stopped, 0x4005)], [], 7⟩

/-- A wait oracle that reports one transient stop and then the
child's exit. -/
def sysE2 : Sys := ⟨⟨memW, 0⟩, [(.stopped, 3), (.exited, 0)], [], 7⟩

/-! ## Theorems -/

/-- C9: issuing `run` (or `r`) while a child is running prints the
"already running" diagnostic, issues no `fork` (the only new effect is
the message), and returns the same `Running` state with the
`DbgInfo` unchanged. -/
theorem running_run_already_running (info : DbgInfo) (s : Sys)
    (rest : List String) :
    runningDoCmd info ("run" :: rest) s =
      .ok (.Running info, { s with log := s.log ++ [.out alreadyRunMsg] }) ∧
    runningDoCmd info ("r" :: rest) s =
      .ok (.Running info, { s with log := s.log ++ [.out alreadyRunMsg] }) :=
  ⟨rfl, rfl⟩

/-- C10: issuing `continue`, `stepi` or `registers` (or their aliases
`c`, `s`, `regs`) while not running prints the "not running"
diagnostic, issues no effect on any process (the only new effect is
the message), leaves the `DbgInfo` unmodified, and returns the same
`NotRunning` state. -/
theorem notrunning_rejects_process_cmds (info : DbgInfo) (s : Sys)
    (rest : List String) :
    rejectedNotRunning "continue" info s rest ∧
    rejectedNotRunning "c" info s rest ∧
    rejectedNotRunning "stepi" info s rest ∧
    rejectedNotRunning "s" info s rest ∧
    rejectedNotRunning "registers" info s rest ∧
    rejectedNotRunning "regs" info s rest :=
  ⟨rfl, rfl, rfl, rfl, rfl, rfl⟩

/-- C4: `get_break_addr` is *not* total — the byte slice
`&addr_str[0..2]` panics when the argument token is shorter than two
bytes, as on the input `["break", "5"]`; the same happens when byte 2
falls inside a multi-byte character, as on `["break", "あ"]`. -/
theorem get_break_addr_short_token_panics :
    get_break_addr ["break", "5"] = .error () ∧
    get_break_addr ["break", "あ"] = .error () :=
  ⟨rfl, rfl⟩

/-- C3 counterexample: the second token `"0x+1"` contains the
character `'+'` after the prefix, which is not a hexadecimal digit,
yet `get_break_addr` returns `some 1` rather than `none`
(`usize::from_str_radix` accepts a leading sign). -/
theorem get_break_addr_plus_sign_counterexample :
    get_break_addr ["break", "0x+1"] = .ok (some 1) ∧
    hexDigit? '+' = none :=
  ⟨rfl, rfl⟩

/-- C7: `do_stepi` follows the `single_step` specification: when the
current instruction pointer equals the registered breakpoint address
it returns exactly the result of the step-over helper
`step_and_break` (which, on a trace-stop, re-arms the trap after one
step); otherwise it issues one plain single-instruction step and
waits for the resulting stop via `wait_child`. -/
theorem do_stepi_follows_single_step (info : DbgInfo) (s : Sys) :
    (info.brk_addr = some s.child.rip →
      do_stepi info s = step_and_break info (emit .getregs s)) ∧
    (info.brk_addr ≠ some s.child.rip →
      do_stepi info s = wait_child info (emit .stepE (emit .getregs s))) ∧
    (∀ addr r rest, info.brk_addr = some addr → s.child.rip = addr →
      s.waits = (WStatus.stopped, r) :: rest →
      ∃ info1 s1, do_stepi info s = .ok (.Running info1, s1) ∧
        s1.child.mem addr % 256 = 0xcc ∧ Effect.stepE ∈ s1.log) := by
  refine ⟨fun h => ?_, fun h => ?_, fun addr r rest ha hr hw => ?_⟩
  · simp [do_stepi, pGetregs, h]
  · simp [do_stepi, pGetregs, h]
  · simp only [do_stepi, pGetregs, ha, hr, step_and_break, pWrite, emit, pWait,
      hw, WStatus.isTerm, set_break, pRead]
    simp only [if_pos rfl, reduceIte]
    refine ⟨_, _, rfl, ?_, ?_⟩
    · simp
      omega
    · simp

/-- C2: with a registered breakpoint address, `set_break` reads the
full memory word there, saves it as `brk_val`, and writes back the
word with only its lowest-order byte replaced by the trap opcode
`0xcc`: afterwards the word at that address has `0xcc` in its lowest
byte and its upper seven bytes unchanged, and nothing else of the
child changed.  With no registered address it succeeds without
touching the child. -/
theorem set_break_installs_trap (info : DbgInfo) (s : Sys) :
    (info.brk_addr = none → set_break info s = .ok (info, s)) ∧
    (∀ addr, info.brk_addr = some addr →
      ∃ s1, set_break info s =
          .ok ({ info with brk_val := s.child.mem addr % 2 ^ 64 }, s1) ∧
        s1.child.mem addr % 256 = 0xcc ∧
        s1.child.mem addr / 256 = s.child.mem addr % 2 ^ 64 / 256 ∧
        (∀ b, b ≠ addr → s1.child.mem b = s.child.mem b) ∧
        s1.child.rip = s.child.rip ∧ s1.waits = s.waits ∧
        s1.log = s.log ++
          [.peek addr,
           .poke addr (s.child.mem addr % 2 ^ 64 -
             s.child.mem addr % 2 ^ 64 % 256 + 0xcc)]) := by
  constructor
  · intro h
    simp [set_break, h]
  · intro addr h
    simp only [set_break, h, pRead, pWrite, emit]
    refine ⟨_, rfl, ?_, ?_, ?_, ?_, ?_, ?_⟩ <;> simp <;> omega

/-- C1: when the child's stop is a trap at the registered breakpoint
address (the reported instruction pointer is one past `addr`),
`wait_child` returns `Running` with the instruction pointer stored in
the child's register set equal to the breakpoint address exactly, and
with the memory word at that address restored to the saved original
value; no other memory word is touched. -/
theorem wait_child_trap_repair (info : DbgInfo) (s : Sys) (addr : Nat)
    (rest : List (WStatus × Nat))
    (ha : info.brk_addr = some addr) (haddr : addr < 2 ^ 64)
    (hval : info.brk_val < 2 ^ 64)
    (hw : s.waits = (WStatus.stopped, (addr + 1) % 2 ^ 64) :: rest) :
    ∃ s1, wait_child info s = .ok (.Running info, s1) ∧
      s1.child.rip = addr ∧ s1.child.mem addr = info.brk_val ∧
      (∀ b, b ≠ addr → s1.child.mem b = s.child.mem b) ∧ s1.waits = rest := by
  have hcond : wsub1 ((addr + 1) % 2 ^ 64 % 2 ^ 64) = addr := by
    unfold wsub1
    omega
  simp only [wait_child, pWait, hw, pGetregs, emit, ha, reduceIte, reduceCtorEq,
    hcond, pSetregs, pWrite]
  refine ⟨_, rfl, ?_, ?_, ?_, ?_⟩
  · simp
    omega
  · simp
    omega
  · intro b hb
    simp [hb]
  · rfl

/-- C5 counterexample: when the forked child terminates before its
first trace-stop, the command-loop step of `run_dbg` does *not* leave
the debugger in a `NotRunning` state able to accept further commands —
`do_run`'s launch-failure `Err` propagates through the `?` in
`run_dbg` and aborts the session. -/
theorem run_launch_failure_aborts_session :
    run_dbg_step (.NotRunning infoLaunch) ["run"] sysLaunch =
      .err launchFailMsg ∧
    ¬ ∃ i s1, run_dbg_step (.NotRunning infoLaunch) ["run"] sysLaunch =
      .ok (.NotRunning i, s1) := by
  refine ⟨rfl, ?_⟩
  rintro ⟨i, s1, h⟩
  rw [show run_dbg_step (.NotRunning infoLaunch) ["run"] sysLaunch =
      .err launchFailMsg from rfl] at h
  exact Out.noConfusion h

/-- C5 (amended): when `run` is issued in `NotRunning` and the forked
child reports termination (exited or signaled) before ever stopping,
`do_run` fails with the launch-failure error and no `Running` state is
entered; the error propagates out of the command loop of `run_dbg`,
ending the session. -/
theorem do_run_early_termination_fails (info : DbgInfo) (s : Sys)
    (w : WStatus) (r : Nat) (rest : List (WStatus × Nat))
    (hw : s.waits = (w, r) :: rest) (ht : w.isTerm = true) :
    do_run info s = .err launchFailMsg ∧
    (∀ args, notRunningDoCmd info ("run" :: args) s = .err launchFailMsg) ∧
    (∀ args, run_dbg_step (.NotRunning info) ("run" :: args) s =
      .err launchFailMsg) := by
  have hdo : do_run info s = .err launchFailMsg := by
    cases w <;> simp_all [WStatus.isTerm, do_run, pWait, emit]
  exact ⟨hdo, fun args => hdo, fun args => hdo⟩

theorem hexFoldl_le (l : List Char) : ∀ acc : Nat,
    acc ≤ l.foldl (fun a c => 16 * a + (hexDigit? c).getD 0) acc := by
  induction l with
  | nil => intro acc; exact Nat.le_refl acc
  | cons c cs ih =>
    intro acc
    rw [List.foldl_cons]
    calc acc ≤ 16 * acc + (hexDigit? c).getD 0 := by omega
    _ ≤ _ := ih _

theorem parseHexGo_eq (l : List Char) : ∀ acc : Nat,
    (∀ c ∈ l, (hexDigit? c).isSome) →
    l.foldl (fun a c => 16 * a + (hexDigit? c).getD 0) acc < 2 ^ 64 →
    parseHexGo l acc =
      some (l.foldl (fun a c => 16 * a + (hexDigit? c).getD 0) acc) := by
  induction l with
  | nil => intro acc _ _; rfl
  | cons c cs ih =>
    intro acc hall hb
    obtain ⟨d, hd⟩ := Option.isSome_iff_exists.mp (hall c (by simp))
    rw [List.foldl_cons] at hb ⊢
    have hlt : 16 * acc + d < 2 ^ 64 := by
      have hm := hexFoldl_le cs (16 * acc + (hexDigit? c).getD 0)
      rw [hd] at hb hm
      simp only [Option.getD_some] at hb hm
      omega
    simp only [parseHexGo, hd]
    rw [if_pos hlt]
    simp only [Option.getD_some]
    exact ih _ (fun x hx => hall x (by simp [hx]))
      (by rw [hd] at hb; simpa using hb)

theorem from_str_radix16_all_digits (ds : List Char) (h1 : ds ≠ [])
    (h2 : ∀ c ∈ ds, (hexDigit? c).isSome) (h3 : hexVal ds < 2 ^ 64) :
    from_str_radix16 (String.mk ds) = some (hexVal ds) := by
  cases ds with
  | nil => exact absurd rfl h1
  | cons d0 ds' =>
    have hd0 : (hexDigit? d0).isSome := h2 d0 (by simp)
    have hplus : d0 ≠ '+' := by
      rintro rfl
      rw [show hexDigit? '+' = none from by decide] at hd0
      simp at hd0
    show (if d0 = '+' then parseHexAll ds'
      else parseHexAll (d0 :: ds')) = some (hexVal (d0 :: ds'))
    rw [if_neg hplus]
    show parseHexGo (d0 :: ds') 0 = some (hexVal (d0 :: ds'))
    exact parseHexGo_eq (d0 :: ds') 0 h2 h3

/-- C3 (amended): a second token `"0x"` followed by a non-empty run
of hexadecimal digits whose value fits in `usize` parses to exactly
that value.  With no second token the parse fails with `none`; so
does a second token of at least two bytes (byte 2 on a character
boundary) whose first two bytes are not `"0x"`, and a token whose
part after the `"0x"` prefix is rejected by `usize::from_str_radix`
(empty, an invalid digit — which for an unsigned type includes `-`
anywhere — or overflow).  Whenever the parse yields `none`,
`set_break_addr` leaves the debugger-info — in particular its
breakpoint field — untouched.  (The claim's blanket "lacking the
prefix"/"non-hex after the prefix" cases are cut down only where
forced: a token shorter than two bytes panics instead, and
`from_str_radix` accepts a leading `+` sign after the prefix.) -/
theorem get_break_addr_parse_amended :
    (∀ t rest ds, ds ≠ [] → (∀ c ∈ ds, (hexDigit? c).isSome) →
      hexVal ds < 2 ^ 64 →
      get_break_addr (t :: String.mk ('0' :: 'x' :: ds) :: rest) =
        .ok (some (hexVal ds))) ∧
    (get_break_addr [] = .ok none) ∧
    (∀ t, get_break_addr [t] = .ok none) ∧
    (∀ t str rest pre, firstTwoBytes? str = some pre → pre ≠ ['0', 'x'] →
      get_break_addr (t :: str :: rest) = .ok none) ∧
    (∀ t rest ds, from_str_radix16 (String.mk ds) = none →
      get_break_addr (t :: String.mk ('0' :: 'x' :: ds) :: rest) = .ok none) ∧
    (∀ info s cmd, get_break_addr cmd = .ok none →
      ∃ b s1, set_break_addr info cmd s = .ok ((info, b), s1)) := by
  refine ⟨?_, rfl, fun t => rfl, ?_, ?_, ?_⟩
  · intro t rest ds h1 h2 h3
    have hred : get_break_addr (t :: String.mk ('0' :: 'x' :: ds) :: rest) =
        .ok (from_str_radix16 (String.mk ds)) := rfl
    rw [hred, from_str_radix16_all_digits ds h1 h2 h3]
  · intro t str rest pre hpre hne
    simp [get_break_addr, hpre, hne]
  · intro t rest ds h
    have hred : get_break_addr (t :: String.mk ('0' :: 'x' :: ds) :: rest) =
        .ok (from_str_radix16 (String.mk ds)) := rfl
    rw [hred, h]
  · intro info s cmd h
    cases hbrk : info.brk_addr with
    | some a => exact ⟨false, emit (.out brkSetMsg) s, by simp [set_break_addr, hbrk]⟩
    | none => exact ⟨false, s, by simp [set_break_addr, hbrk, h]⟩

theorem exitLoop_ok_spec (fp : Nat) :
    ∀ (ws : List (WStatus × Nat)) (c : Child) (log : List Effect) (s1 : Sys),
    exitLoop c fp log ws = .ok ((), s1) →
    ∃ pre w r post, ws = pre ++ (w, r) :: post ∧
      (∀ x ∈ pre, x.1.isTerm = false) ∧ w.isTerm = true ∧
      s1.waits = post ∧
      s1.log = log ++ (List.replicate (pre.length + 1)
        [Effect.kill, Effect.waitE]).flatten := by
  intro ws
  induction ws with
  | nil => intro c log s1 h; exact Out.noConfusion h
  | cons p ws ih =>
    obtain ⟨w0, r0⟩ := p
    intro c log s1 h
    by_cases ht : w0.isTerm = true
    · rw [show exitLoop c fp log ((w0, r0) :: ws) =
          .ok ((), ⟨if w0 = .stopped then { c with rip := r0 % 2 ^ 64 } else c,
            ws, log ++ [.kill, .waitE], fp⟩) from by
          simp [exitLoop, ht]] at h
      cases h
      exact ⟨[], w0, r0, ws, rfl, by simp, ht, rfl, by simp⟩
    · rw [show exitLoop c fp log ((w0, r0) :: ws) =
          exitLoop (if w0 = .stopped then { c with rip := r0 % 2 ^ 64 } else c)
            fp (log ++ [.kill, .waitE]) ws from by
          simp [exitLoop, ht]] at h
      obtain ⟨pre, w, r, post, hws, hpre, hterm, hwaits, hlog⟩ := ih _ _ _ h
      refine ⟨(w0, r0) :: pre, w, r, post, by simp [hws], ?_, hterm, hwaits, ?_⟩
      · intro x hx
        rcases List.mem_cons.mp hx with hx | hx
        · subst hx
          simpa using ht
        · exact hpre x hx
      · rw [hlog]
        simp [List.replicate_succ, List.flatten_cons]

/-- C8: when `exit` succeeds while running, it yields the terminal
`Exit` state, and its success came only after a kill/wait loop whose
final `waitpid` reported termination (exited or signaled): every wait
status consumed before it was a non-termination status that the loop
skipped past, and the effect log shows one `kill` before every
`waitpid` issued. -/
theorem running_exit_kills_until_termination (info : DbgInfo) (s : Sys)
    (st : StateR) (s1 : Sys)
    (h : runningDoCmd info ["exit"] s = .ok (st, s1)) :
    st = .Exit ∧ ∃ pre w r post,
      s.waits = pre ++ (w, r) :: post ∧
      (∀ x ∈ pre, x.1.isTerm = false) ∧ w.isTerm = true ∧
      s1.waits = post ∧
      s1.log = s.log ++ (List.replicate (pre.length + 1)
        [Effect.kill, Effect.waitE]).flatten := by
  have hred : runningDoCmd info ["exit"] s =
      (match do_exit s with
       | .ok (_, s2) => .ok (.Exit, s2)
       | .err e => .err e
       | .stuck => .stuck
       | .panicked => .panicked) := rfl
  rw [hred] at h
  cases hdo : do_exit s with
  | ok p =>
      obtain ⟨u, s2⟩ := p
      rw [hdo] at h
      simp only [Out.ok.injEq, Prod.mk.injEq] at h
      obtain ⟨h1, h2⟩ := h
      subst h1
      subst h2
      exact ⟨rfl, exitLoop_ok_spec s.forkPid s.waits s.child s.log s2 hdo⟩
  | err e => rw [hdo] at h; exact Out.noConfusion h
  | stuck => rw [hdo] at h; exact Out.noConfusion h
  | panicked => rw [hdo] at h; exact Out.noConfusion h

theorem set_break_keeps (info : DbgInfo) (s : Sys) (i1 : DbgInfo) (s1 : Sys)
    (h : set_break info s = .ok (i1, s1)) : i1.brk_addr = info.brk_addr := by
  cases hb : info.brk_addr with
  | none =>
      simp [set_break, hb] at h
      obtain ⟨h1, h2⟩ := h
      simp [← h1, hb]
  | some a =>
      simp [set_break, hb, pRead, pWrite, emit] at h
      obtain ⟨h1, h2⟩ := h
      simp [← h1, hb]

theorem wait_child_states (info : DbgInfo) (s : Sys) (st : StateR) (s1 : Sys)
    (h : wait_child info s = .ok (st, s1)) :
    st = .Running info ∨ st = .NotRunning info := by
  unfold wait_child at h
  cases hpw : pWait s with
  | err e => rw [hpw] at h; exact Out.noConfusion h
  | stuck => rw [hpw] at h; exact Out.noConfusion h
  | panicked => rw [hpw] at h; exact Out.noConfusion h
  | ok p =>
      obtain ⟨⟨w, r⟩, s2⟩ := p
      rw [hpw] at h
      cases w with
      | exited => cases h; exact Or.inr rfl
      | signaled => cases h; exact Or.inr rfl
      | other => exact Out.noConfusion h
      | stopped =>
          simp only [pGetregs] at h
          cases hb : info.brk_addr with
          | none => rw [hb] at h; cases h; exact Or.inl rfl
          | some addr =>
              rw [hb] at h
              dsimp only at h
              by_cases hc : wsub1 s2.child.rip = addr
              · rw [if_pos hc] at h; cases h; exact Or.inl rfl
              · rw [if_neg hc] at h; cases h; exact Or.inl rfl

theorem brkPreserved_of_states (info : DbgInfo) (st : StateR)
    (h : st = .Running info ∨ st = .NotRunning info) : brkPreserved info st := by
  rcases h with h | h <;> subst h <;> rfl

theorem step_and_break_states (info : DbgInfo) (s : Sys) (st : StateR) (s1 : Sys)
    (h : step_and_break info s = .ok (st, s1)) : brkPreserved info st := by
  unfold step_and_break at h
  simp only [pGetregs] at h
  cases hb : info.brk_addr with
  | none => rw [hb] at h; cases h; exact rfl
  | some addr =>
      rw [hb] at h
      dsimp only at h
      by_cases hc : s.child.rip = addr
      · rw [if_pos hc] at h
        split at h <;> try exact Out.noConfusion h
        split at h
        · cases h; exact rfl
        · split at h <;> try exact Out.noConfusion h
          next i1 s5 heq =>
            cases h
            exact set_break_keeps _ _ _ _ heq
      · rw [if_neg hc] at h
        cases h
        exact rfl

theorem do_stepi_states (info : DbgInfo) (s : Sys) (st : StateR) (s1 : Sys)
    (h : do_stepi info s = .ok (st, s1)) : brkPreserved info st := by
  unfold do_stepi at h
  simp only [pGetregs] at h
  by_cases hc : info.brk_addr = some s.child.rip
  · rw [if_pos hc] at h
    exact step_and_break_states _ _ _ _ h
  · rw [if_neg hc] at h
    exact brkPreserved_of_states _ _ (wait_child_states _ _ _ _ h)

theorem do_continue_states (info : DbgInfo) (s : Sys) (st : StateR) (s1 : Sys)
    (h : do_continue info s = .ok (st, s1)) : brkPreserved info st := by
  unfold do_continue at h
  split at h <;> try exact Out.noConfusion h
  next info1 s2 heq =>
    have h1 : info1.brk_addr = info.brk_addr := step_and_break_states _ _ _ _ heq
    have h2 := brkPreserved_of_states _ _ (wait_child_states _ _ _ _ h)
    cases st with
    | Running i => exact Eq.trans (h2 : i.brk_addr = info1.brk_addr) h1
    | NotRunning i => exact Eq.trans (h2 : i.brk_addr = info1.brk_addr) h1
    | Exit => exact trivial
  next st' s2 hne heq =>
    cases h
    exact step_and_break_states _ _ _ _ heq

theorem do_run_states (info : DbgInfo) (s : Sys) (st : StateR) (s1 : Sys)
    (h : do_run info s = .ok (st, s1)) : brkPreserved info st := by
  unfold do_run at h
  dsimp only at h
  split at h <;> try exact Out.noConfusion h
  next w r s2 heqw =>
    cases w with
    | exited => exact Out.noConfusion h
    | signaled => exact Out.noConfusion h
    | other => exact Out.noConfusion h
    | stopped =>
        dsimp only at h
        split at h <;> try exact Out.noConfusion h
        next info2 s3 heq =>
          have h1 : info2.brk_addr = info.brk_addr :=
            set_break_keeps { info with pid := s2.forkPid } _ _ _ heq
          have h2 := do_continue_states _ _ _ _ h
          cases st with
          | Running i => exact Eq.trans (h2 : i.brk_addr = info2.brk_addr) h1
          | NotRunning i => exact Eq.trans (h2 : i.brk_addr = info2.brk_addr) h1
          | Exit => exact trivial

theorem notRunningDoCmd_keeps (info : DbgInfo) (s : Sys) (cmd : List String)
    (st : StateR) (s1 : Sys) (a : Nat) (ha : info.brk_addr = some a)
    (h : notRunningDoCmd info cmd s = .ok (st, s1)) : brkPreserved info st := by
  unfold notRunningDoCmd at h
  cases cmd with
  | nil => cases h; rfl
  | cons c rest =>
      dsimp only at h
      split at h
      · exact do_run_states _ _ _ _ h
      · split at h
        · rw [show set_break_addr info (c :: rest) s =
              .ok ((info, false), emit (.out brkSetMsg) s) from by
              simp [set_break_addr, ha]] at h
          dsimp only at h
          cases h
          rfl
        · split at h
          · cases h
            exact trivial
          · split at h
            · cases h; rfl
            · cases h; rfl

theorem runningDoCmd_keeps (info : DbgInfo) (s : Sys) (cmd : List String)
    (st : StateR) (s1 : Sys) (a : Nat) (ha : info.brk_addr = some a)
    (h : runningDoCmd info cmd s = .ok (st, s1)) : brkPreserved info st := by
  unfold runningDoCmd at h
  cases cmd with
  | nil => cases h; rfl
  | cons c rest =>
      dsimp only at h
      split at h
      · rw [show set_break_addr info (c :: rest) s =
            .ok ((info, false), emit (.out brkSetMsg) s) from by
            simp [set_break_addr, ha]] at h
        dsimp only at h
        cases h
        rfl
      · split at h
        · exact do_continue_states _ _ _ _ h
        · split at h
          · simp only [pGetregs] at h
            cases h
            rfl
          · split at h
            · exact do_stepi_states _ _ _ _ h
            · split at h
              · cases h; rfl
              · split at h
                · split at h <;> try exact Out.noConfusion h
                  next p heq =>
                    obtain ⟨u, s2⟩ := p
                    cases h
                    exact trivial
                · cases h; rfl

/-- C6: with a breakpoint already registered, issuing `break`/`b` with
any argument, in either state, is rejected with the "already set"
diagnostic and returns the state with the `DbgInfo` — in particular
the registered address — unchanged; moreover every command processed
in either state preserves the registered breakpoint address in the
state it returns, so at most one address is ever registered for the
lifetime of a `DbgInfo`. -/
theorem breakpoint_registered_once (info : DbgInfo) (s : Sys) (a : Nat)
    (ha : info.brk_addr = some a) :
    (∀ rest, notRunningDoCmd info ("break" :: rest) s =
        .ok (.NotRunning info, emit (.out brkSetMsg) s) ∧
      notRunningDoCmd info ("b" :: rest) s =
        .ok (.NotRunning info, emit (.out brkSetMsg) s) ∧
      runningDoCmd info ("break" :: rest) s =
        .ok (.Running info, emit (.out brkSetMsg) s) ∧
      runningDoCmd info ("b" :: rest) s =
        .ok (.Running info, emit (.out brkSetMsg) s)) ∧
    (∀ cmd st s1, notRunningDoCmd info cmd s = .ok (st, s1) →
      brkPreserved info st) ∧
    (∀ cmd st s1, runningDoCmd info cmd s = .ok (st, s1) →
      brkPreserved info st) := by
  refine ⟨fun rest => ⟨?_, ?_, ?_, ?_⟩,
    fun cmd st s1 h => notRunningDoCmd_keeps info s cmd st s1 a ha h,
    fun cmd st s1 h => runningDoCmd_keeps info s cmd st s1 a ha h⟩ <;>
    simp [notRunningDoCmd, runningDoCmd, set_break_addr, ha]

/-! ## Concrete witnesses -/

/-- Witness for C1 at the concrete trap stop `sysW`. -/
theorem wait_child_trap_repair_witness :
    ∃ s1, wait_child infoW sysW = .ok (.Running infoW, s1) ∧
      s1.child.rip = 0x4000 ∧ s1.child.mem 0x4000 = infoW.brk_val ∧
      (∀ b, b ≠ 0x4000 → s1.child.mem b = sysW.child.mem b) ∧
      s1.waits = [] :=
  wait_child_trap_repair infoW sysW 0x4000 [] rfl (by decide) (by decide) rfl

/-- Witness for C2: the no-breakpoint branch on `infoN` and the
install branch on `infoW`. -/
theorem set_break_installs_trap_witness :
    set_break infoN sysW = .ok (infoN, sysW) ∧
    ∃ s1, set_break infoW sysW =
        .ok ({ infoW with brk_val := sysW.child.mem 0x4000 % 2 ^ 64 }, s1) ∧
      s1.child.mem 0x4000 % 256 = 0xcc ∧
      s1.child.mem 0x4000 / 256 = sysW.child.mem 0x4000 % 2 ^ 64 / 256 ∧
      (∀ b, b ≠ 0x4000 → s1.child.mem b = sysW.child.mem b) ∧
      s1.child.rip = sysW.child.rip ∧ s1.waits = sysW.waits ∧
      s1.log = sysW.log ++
        [.peek 0x4000,
         .poke 0x4000 (sysW.child.mem 0x4000 % 2 ^ 64 -
           sysW.child.mem 0x4000 % 2 ^ 64 % 256 + 0xcc)] :=
  ⟨(set_break_installs_trap infoN sysW).1 rfl,
   (set_break_installs_trap infoW sysW).2 0x4000 rfl⟩

/-- Witness for C3 (amended) at concrete tokens: `"0x8000"` parses to
its value, `"qz"` lacks the prefix, `"0xz"` has an invalid digit,
`"0x-0"` is rejected (`-` is not a sign for `usize`), and a missing
argument leaves `infoN` untouched. -/
theorem get_break_addr_parse_amended_witness :
    get_break_addr ["break", String.mk ['0', 'x', '8', '0', '0', '0']] =
      .ok (some (hexVal ['8', '0', '0', '0'])) ∧
    get_break_addr ["break", "qz"] = .ok none ∧
    get_break_addr ["break", String.mk ['0', 'x', 'z']] = .ok none ∧
    get_break_addr ["break", String.mk ['0', 'x', '-', '0']] = .ok none ∧
    ∃ b s1, set_break_addr infoN ["break"] sysW = .ok ((infoN, b), s1) :=
  ⟨get_break_addr_parse_amended.1 "break" [] ['8', '0', '0', '0']
      (by decide) (by decide) (by decide),
   get_break_addr_parse_amended.2.2.2.1 "break" "qz" [] ['q', 'z'] rfl
      (by decide),
   get_break_addr_parse_amended.2.2.2.2.1 "break" [] ['z'] (by decide),
   get_break_addr_parse_amended.2.2.2.2.1 "break" [] ['-', '0'] (by decide),
   get_break_addr_parse_amended.2.2.2.2.2 infoN sysW ["break"] rfl⟩

/-- Witness for C5 (amended) at the concrete early-exit oracle
`sysLaunch`. -/
theorem do_run_early_termination_fails_witness :
    do_run infoLaunch sysLaunch = .err launchFailMsg ∧
    notRunningDoCmd infoLaunch ["run"] sysLaunch = .err launchFailMsg ∧
    run_dbg_step (.NotRunning infoLaunch) ["run"] sysLaunch =
      .err launchFailMsg :=
  ⟨(do_run_early_termination_fails infoLaunch sysLaunch .exited 0 [] rfl
      rfl).1,
   (do_run_early_termination_fails infoLaunch sysLaunch .exited 0 [] rfl
      rfl).2.1 ["run"],
   (do_run_early_termination_fails infoLaunch sysLaunch .exited 0 [] rfl
      rfl).2.2 ["run"]⟩

/-- Witness for C6 on `infoW` (breakpoint registered at `0x4000`). -/
theorem breakpoint_registered_once_witness :
    (notRunningDoCmd infoW ["break", "0x1"] sysW =
        .ok (.NotRunning infoW, emit (.out brkSetMsg) sysW) ∧
      notRunningDoCmd infoW ["b", "0x1"] sysW =
        .ok (.NotRunning infoW, emit (.out brkSetMsg) sysW) ∧
      runningDoCmd infoW ["break", "0x1"] sysW =
        .ok (.Running infoW, emit (.out brkSetMsg) sysW) ∧
      runningDoCmd infoW ["b", "0x1"] sysW =
        .ok (.Running infoW, emit (.out brkSetMsg) sysW)) ∧
    brkPreserved infoW (.NotRunning infoW) :=
  ⟨(breakpoint_registered_once infoW sysW 0x4000 rfl).1 ["0x1"],
   (breakpoint_registered_once infoW sysW 0x4000 rfl).2.1 []
     (.NotRunning infoW) sysW rfl⟩

/-- Witness for C7: at the breakpoint (`sysAt`) `do_stepi` is the
step-over helper and re-arms the trap; away from it (`sysW`) it is a
plain step plus wait. -/
theorem do_stepi_follows_single_step_witness :
    do_stepi infoW sysAt = step_and_break infoW (emit .getregs sysAt) ∧
    do_stepi infoW sysW = wait_child infoW (emit .stepE (emit .getregs sysW)) ∧
    ∃ info1 s1, do_stepi infoW sysAt = .ok (.Running info1, s1) ∧
      s1.child.mem 0x4000 % 256 = 0xcc ∧ Effect.stepE ∈ s1.log :=
  ⟨(do_stepi_follows_single_step infoW sysAt).1 rfl,
   (do_stepi_follows_single_step infoW sysW).2.1 (by decide),
   (do_stepi_follows_single_step infoW sysAt).2.2 0x4000 0x4005 [] rfl rfl
     rfl⟩

/-- Witness for C8 at the concrete oracle `sysE2` (one transient stop
skipped, then the exit observed). -/
theorem running_exit_kills_until_termination_witness :
    StateR.Exit = .Exit ∧ ∃ pre w r post,
      sysE2.waits = pre ++ (w, r) :: post ∧
      (∀ x ∈ pre, x.1.isTerm = false) ∧ w.isTerm = true ∧
      (⟨⟨memW, 3⟩, [], [.kill, .waitE, .kill, .waitE], 7⟩ : Sys).waits =
        post ∧
      (⟨⟨memW, 3⟩, [], [.kill, .waitE, .kill, .waitE], 7⟩ : Sys).log =
        sysE2.log ++ (List.replicate (pre.length + 1)
          [Effect.kill, Effect.waitE]).flatten :=
  running_exit_kills_until_termination infoW sysE2 .Exit
    ⟨⟨memW, 3⟩, [], [.kill, .waitE, .kill, .waitE], 7⟩ rfl

end ZdbgModel
